import Mathlib

/-!
Formal model of the client-side resilience layer of the ai-knowledge frontend:
the `ApiCache` response cache (TTL expiry, insertion-order size bound, key
derivation), the `withRetry` exponential-backoff retry wrapper and its error
classification, the `CachedApiClient` composition used by the dashboard page
(including its stale-while-revalidate background-refresh suppression), the
`useFileUpload` bounded-concurrency upload manager with validation and
cancellation, and the `useOptimisticUpdate` rollback controller.

Conventions of the embedding:
* JavaScript `Map`s are association lists in insertion order (`Map.set` on an
  existing key updates the entry in place, on a new key appends at the end;
  iteration and `Array.from(map.keys())` follow insertion order).
* Timestamps (`Date.now()`) and durations are modelled as `Int` milliseconds;
  fractional quantities produced by floating-point arithmetic (backoff delays,
  jitter, upload speed) are modelled as exact rationals `ℚ`.  `Math.random()`
  is passed in explicitly as a rational argument.
* JavaScript falsy coalescing `x || d` on numbers/strings is modelled
  explicitly (`0`, `""` and `undefined` fall back to `d`).
* Localized, formatted validation messages (Russian text interpolating file
  names and sizes) are abstracted to stable tags; only their presence, count
  and grouping are relevant to any statement below.  String literals that the
  control flow itself compares or stores verbatim are kept exactly.
-/

/-! ## JSON parameter serialization and cache keys (`ApiCache.generateKey`) -/

/-- A primitive JSON value usable as a query-parameter value. -/
inductive JsonPrim where
  | str (s : String)
  | num (n : Int)
  | bool (b : Bool)
deriving DecidableEq

/-- JSON string escaping for one character (backslash and double quote). -/
def jsonEscapeChar (c : Char) : String :=
  if c = '\\' then "\\\\" else if c = '"' then "\\\"" else String.singleton c

/-- JSON string escaping over the character list. -/
def jsonEscapeList : List Char → List Char
  | [] => []
  | c :: t => (jsonEscapeChar c).data ++ jsonEscapeList t

/-- JSON string escaping, as performed by `JSON.stringify` on string values. -/
def jsonEscape (s : String) : String :=
  String.mk (jsonEscapeList s.data)

/-- Rendering of a primitive JSON value, as by `JSON.stringify`. -/
def JsonPrim.render : JsonPrim → String
  | .str s => "\"" ++ jsonEscape s ++ "\""
  | .num n => toString n
  | .bool true => "true"
  | .bool false => "false"

/-- `JSON.stringify` on a params object: keys are serialized in insertion
order (association-list order), exactly as JavaScript object properties. -/
def jsonStringifyParams (ps : List (String × JsonPrim)) : String :=
  "\x7b" ++
    String.intercalate ","
      (ps.map (fun kv => "\"" ++ jsonEscape kv.1 ++ "\":" ++ kv.2.render)) ++
  "\x7d"

/-- The `paramString` local of `ApiCache.generateKey`:
`params ? JSON.stringify(params) : ''`. -/
def paramStringOf (params : Option (List (String × JsonPrim))) : String :=
  match params with
  | some ps => jsonStringifyParams ps
  | none => ""

/-- `ApiCache.generateKey(url, params)`: `url + ':' + paramString`. -/
def ApiCache.generateKey (url : String)
    (params : Option (List (String × JsonPrim))) : String :=
  url ++ ":" ++ paramStringOf params

/-! ## The `ApiCache` store -/

/-- `CacheItem<T>` of the source: stored value, `Date.now()` timestamp and
time-to-live, in milliseconds. -/
structure CacheItem (α : Type) where
  data : α
  timestamp : Int
  ttl : Int
deriving DecidableEq

/-- `CacheConfig` (the `enableDevLogs` flag only gates console logging and is
omitted). -/
structure CacheConfig where
  defaultTTL : Int
  maxSize : Nat
deriving DecidableEq

/-- The backing `Map<string, CacheItem>` in insertion order. -/
abbrev CacheStore (α : Type) := List (String × CacheItem α)

/-- Insertion-order association-list lookup (`Map.get`). -/
def lookupKV {β : Type} : List (String × β) → String → Option β
  | [], _ => none
  | kv :: t, k => if kv.1 = k then some kv.2 else lookupKV t k

/-- JavaScript `Map.set`: update in place if the key exists (keeping its
insertion position), otherwise append at the end. -/
def jsMapSet {β : Type} : List (String × β) → String → β → List (String × β)
  | [], k, v => [(k, v)]
  | kv :: t, k, v => if kv.1 = k then (k, v) :: t else kv :: jsMapSet t k v

/-- JavaScript `Map.delete` (no-op when the key is absent). -/
def jsMapDelete {β : Type} (l : List (String × β)) (k : String) :
    List (String × β) :=
  l.filter (fun kv => kv.1 != k)

/-- `ApiCache.isExpired(item)`: `Date.now() - item.timestamp > item.ttl`. -/
def ApiCache.isExpired {α : Type} (now : Int) (item : CacheItem α) : Bool :=
  now - item.timestamp > item.ttl

/-- `ApiCache.cleanup()`: purge expired entries, then, if the store still
exceeds `maxSize`, delete the first `size - maxSize` keys in insertion order
(the oldest insertions). -/
def ApiCache.cleanup {α : Type} (cfg : CacheConfig) (now : Int)
    (store : CacheStore α) : CacheStore α :=
  let purged := store.filter (fun kv => !(ApiCache.isExpired now kv.2))
  if purged.length > cfg.maxSize then purged.drop (purged.length - cfg.maxSize)
  else purged

/-- JavaScript `ttl || defaultTTL` (a `ttl` of `0` or `undefined` falls back
to the default). -/
def jsOrInt (x : Option Int) (d : Int) : Int :=
  match x with
  | some t => if t = 0 then d else t
  | none => d

/-- `ApiCache.get(url, params)` at key level: run `cleanup`, then return the
entry's data when present and not expired.  Returns the value and the mutated
store. -/
def ApiCache.getByKey {α : Type} (cfg : CacheConfig) (now : Int)
    (store : CacheStore α) (key : String) : Option α × CacheStore α :=
  let store1 := ApiCache.cleanup cfg now store
  match lookupKV store1 key with
  | some item =>
      (if !(ApiCache.isExpired now item) then some item.data else none, store1)
  | none => (none, store1)

/-- `ApiCache.set(url, data, params, ttl)` at key level: insert/overwrite the
entry with timestamp `now` and `ttl || defaultTTL`, then run `cleanup`. -/
def ApiCache.setByKey {α : Type} (cfg : CacheConfig) (now : Int)
    (store : CacheStore α) (key : String) (data : α) (ttlArg : Option Int) :
    CacheStore α :=
  let item : CacheItem α :=
    { data := data, timestamp := now, ttl := jsOrInt ttlArg cfg.defaultTTL }
  ApiCache.cleanup cfg now (jsMapSet store key item)

/-- `ApiCache.get(url, params)`: value component. -/
def ApiCache.getValue {α : Type} (cfg : CacheConfig) (now : Int)
    (store : CacheStore α) (url : String)
    (params : Option (List (String × JsonPrim))) : Option α :=
  (ApiCache.getByKey cfg now store (ApiCache.generateKey url params)).1

/-- `ApiCache.get(url, params)`: store component (the mutated cache). -/
def ApiCache.getStore {α : Type} (cfg : CacheConfig) (now : Int)
    (store : CacheStore α) (url : String)
    (params : Option (List (String × JsonPrim))) : CacheStore α :=
  (ApiCache.getByKey cfg now store (ApiCache.generateKey url params)).2

/-- `ApiCache.set(url, data, params, ttl)`. -/
def ApiCache.setStore {α : Type} (cfg : CacheConfig) (now : Int)
    (store : CacheStore α) (url : String) (data : α)
    (params : Option (List (String × JsonPrim))) (ttlArg : Option Int) :
    CacheStore α :=
  ApiCache.setByKey cfg now store (ApiCache.generateKey url params) data ttlArg

/-- `ApiCache.invalidate(url, params)`. -/
def ApiCache.invalidate {α : Type} (store : CacheStore α) (url : String)
    (params : Option (List (String × JsonPrim))) : CacheStore α :=
  jsMapDelete store (ApiCache.generateKey url params)

/-- String containment, as JavaScript `key.includes(pattern)`. -/
def jsStringIncludes (s pat : String) : Bool :=
  decide (List.IsInfix pat.data s.data)

/-- `ApiCache.invalidatePattern(pattern)`: delete every entry whose key
contains the pattern. -/
def ApiCache.invalidatePattern {α : Type} (store : CacheStore α)
    (pattern : String) : CacheStore α :=
  store.filter (fun kv => !(jsStringIncludes kv.1 pattern))

/-- `ApiCache.clear()`. -/
def ApiCache.clearStore {α : Type} (_store : CacheStore α) : CacheStore α := []

/-! ## Retry policy (`errorHandler.ts`) -/

/-- The `error.response` object of an axios-style error: HTTP status and the
optional `response.data.message`. -/
structure ErrResponse where
  status : Nat
  dataMessage : Option String
deriving DecidableEq

/-- `ErrorContext` of the source. -/
structure ErrorContext where
  url : Option String
  method : Option String
  status : Option Nat
  attempt : Option Nat
  maxAttempts : Option Nat
deriving DecidableEq

/-- The empty `{}` context. -/
def ErrorContext.empty : ErrorContext :=
  { url := none, method := none, status := none, attempt := none,
    maxAttempts := none }

/-- A JavaScript error value as consumed by the retry layer.  A raw
axios-style transport error carries `response`; a constructed `NetworkError`
instance instead carries its own `status`/`context`/`isRetryable` fields and
has NO `response` property. -/
structure JsError where
  message : String
  response : Option ErrResponse
  status : Option Nat
  context : ErrorContext
  isRetryable : Bool
deriving DecidableEq

/-- A raw transport error with a response of the given status. -/
def JsError.ofStatus (message : String) (status : Nat) : JsError :=
  { message := message, response := some { status := status, dataMessage := none },
    status := none, context := ErrorContext.empty, isRetryable := false }

/-- A raw transport error with no response (network failure). -/
def JsError.noResponse (message : String) : JsError :=
  { message := message, response := none, status := none,
    context := ErrorContext.empty, isRetryable := false }

/-- `RetryConfig` of the source; delays in milliseconds. -/
structure RetryConfig where
  maxAttempts : Nat
  baseDelay : ℚ
  maxDelay : ℚ
  exponentialBase : ℚ
  jitter : Bool
deriving DecidableEq

/-- The retryable HTTP status codes of `isRetryableError`. -/
def retryableStatuses : List Nat := [408, 409, 429, 500, 502, 503, 504]

/-- `isRetryableError(error)`: retryable iff there is no `response` (network
error) or the response status is in the retryable list. -/
def isRetryableError (e : JsError) : Bool :=
  match e.response with
  | none => true
  | some r => retryableStatuses.contains r.status

/-- `calculateDelay(attempt, config)`; `rand` stands for the `Math.random()`
sample in `[0,1]` drawn when jitter is enabled. -/
def calculateDelay (cfg : RetryConfig) (rand : ℚ) (attempt : Nat) : ℚ :=
  let exponentialDelay := cfg.baseDelay * cfg.exponentialBase ^ (attempt - 1)
  let delay := min exponentialDelay cfg.maxDelay
  if cfg.jitter then
    let jitter := delay * 0.25 * (rand * 2 - 1)
    max 0 (delay + jitter)
  else delay

/-- The terminal `new NetworkError(error.message || 'Request failed',
error.response?.status, errorContext, false)` thrown by `withRetry` when
retries are exhausted or the error is classified non-retryable.  Note that
the status is read from `error.response?.status` — `undefined` when the
caught error is itself a `NetworkError` instance. -/
def terminalNetworkError (e : JsError) (attempt maxAttempts : Nat)
    (ctx : ErrorContext) : JsError :=
  { message := if e.message = "" then "Request failed" else e.message,
    response := none,
    status := e.response.map (fun r => r.status),
    context := { ctx with attempt := some attempt, maxAttempts := some maxAttempts },
    isRetryable := false }

/-- Result of a `withRetry` run: success, a terminal `NetworkError`, or the
documented-unreachable final `throw lastError` fall-through (possible only
when `maxAttempts = 0`, where the loop body never executes). -/
inductive RetryResult (δ : Type) where
  | ok (value : δ)
  | failed (e : JsError)
  | fellThrough
deriving DecidableEq

/-- Observable outcome of `withRetry`: the result, the number of attempts that
executed, and the backoff delays slept between attempts, in order. -/
structure RetryOutcome (δ : Type) where
  result : RetryResult δ
  attemptsUsed : Nat
  delays : List ℚ
deriving DecidableEq

/-- The `for (let attempt = 1; attempt <= maxAttempts; attempt++)` loop of
`withRetry`.  `op attempt` is the outcome of `operation()` on that attempt;
`fuel` is the number of loop iterations remaining (`maxAttempts - attempt + 1`
at every call). -/
def withRetryLoop {δ : Type} (op : Nat → Except JsError δ) (cfg : RetryConfig)
    (ctx : ErrorContext) (rand : ℚ) : Nat → Nat → RetryOutcome δ
  | attempt, 0 => { result := .fellThrough, attemptsUsed := attempt - 1, delays := [] }
  | attempt, fuel + 1 =>
    match op attempt with
    | .ok v => { result := .ok v, attemptsUsed := attempt, delays := [] }
    | .error e =>
      if attempt == cfg.maxAttempts || !(isRetryableError e) then
        { result := .failed (terminalNetworkError e attempt cfg.maxAttempts ctx),
          attemptsUsed := attempt, delays := [] }
      else
        let rest := withRetryLoop op cfg ctx rand (attempt + 1) fuel
        { result := rest.result, attemptsUsed := rest.attemptsUsed,
          delays := calculateDelay cfg rand attempt :: rest.delays }

/-- `withRetry(operation, config, context)` with a fully resolved config (the
callers below always pass a complete `RETRY_CONFIGS` profile, so the
`Partial<RetryConfig>` defaulting merge is not modelled separately). -/
def withRetry {δ : Type} (op : Nat → Except JsError δ) (cfg : RetryConfig)
    (ctx : ErrorContext) (rand : ℚ) : RetryOutcome δ :=
  withRetryLoop op cfg ctx rand 1 cfg.maxAttempts

/-- The default config merged by `withRetry` when no overrides are given. -/
def defaultRetryConfig : RetryConfig :=
  { maxAttempts := 3, baseDelay := 1000, maxDelay := 10000,
    exponentialBase := 2, jitter := true }

/-- `RETRY_CONFIGS.quick`. -/
def RETRY_CONFIGS.quick : RetryConfig :=
  { maxAttempts := 2, baseDelay := 500, maxDelay := 2000,
    exponentialBase := 2, jitter := true }

/-- `RETRY_CONFIGS.standard`. -/
def RETRY_CONFIGS.standard : RetryConfig :=
  { maxAttempts := 3, baseDelay := 1000, maxDelay := 5000,
    exponentialBase := 2, jitter := true }

/-- `RETRY_CONFIGS.heavy`. -/
def RETRY_CONFIGS.heavy : RetryConfig :=
  { maxAttempts := 5, baseDelay := 2000, maxDelay := 30000,
    exponentialBase := 1.5, jitter := true }

/-- JavaScript `a || b` on an optional string (empty string is falsy). -/
def jsOrString (x : Option String) (d : String) : String :=
  match x with
  | some s => if s = "" then d else s
  | none => d

/-- `getUserFriendlyErrorMessage(error)`. -/
def getUserFriendlyErrorMessage (e : JsError) : String :=
  match e.response with
  | none => "Проблемы с подключением к серверу. Проверьте интернет-соединение."
  | some r =>
    let message := jsOrString r.dataMessage e.message
    match r.status with
    | 400 => "Некорректный запрос. Проверьте введенные данные."
    | 401 => "Необходима авторизация. Пожалуйста, войдите в систему."
    | 403 => "Недостаточно прав для выполнения операции."
    | 404 => "Запрашиваемый ресурс не найден."
    | 409 => "Конфликт данных. Возможно, ресурс уже существует."
    | 429 => "Слишком много запросов. Попробуйте позже."
    | 500 => "Внутренняя ошибка сервера. Мы работаем над исправлением."
    | 502 => "Сервер временно недоступен. Попробуйте позже."
    | 503 => "Сервис временно недоступен. Попробуйте позже."
    | 504 => "Превышено время ожидания ответа сервера."
    | s =>
      if message = "" then "Ошибка сервера (" ++ toString s ++ ")" else message

/-- `handleApiError(error, context)`: builds a `NetworkError` (or
`RetryableError`) carrying the friendly message, the original response
status in its own `status` field, and the computed `isRetryable` flag.  The
constructed instance has no `response` property. -/
def handleApiError (e : JsError) (ctx : ErrorContext) : JsError :=
  { message := getUserFriendlyErrorMessage e,
    response := none,
    status := e.response.map (fun r => r.status),
    context := ctx,
    isRetryable := isRetryableError e }

/-! ## `CachedApiClient` (Dashboard.tsx) -/

/-- The `requestOperation` closure of `CachedApiClient.get`: run the transport
call; on failure rethrow `handleApiError(error, { url, method: 'GET' })`. -/
def CachedApiClient.requestOperation {δ : Type}
    (transport : Nat → Except JsError δ) (ctx : ErrorContext) (attempt : Nat) :
    Except JsError δ :=
  match transport attempt with
  | .ok v => .ok v
  | .error e => .error (handleApiError e ctx)

/-- The cache-miss path of `CachedApiClient.get` with the default `'standard'`
retry profile: `withRetry(requestOperation, RETRY_CONFIGS.standard, ctx)`. -/
def CachedApiClient.getFresh {δ : Type} (transport : Nat → Except JsError δ)
    (ctx : ErrorContext) (rand : ℚ) : RetryOutcome δ :=
  withRetry (CachedApiClient.requestOperation transport ctx)
    RETRY_CONFIGS.standard ctx rand

/-- Events observable on the `backgroundRefreshPromises` map of one
`CachedApiClient` instance: a stale-while-revalidate refresh trigger for a
key, and the settlement (`finally`) of the in-flight refresh of a key. -/
inductive RefreshEvent where
  | trigger (key : String)
  | settle (key : String)
deriving DecidableEq

/-- One step of `refreshInBackground` bookkeeping on the set of keys with an
in-flight background refresh: a trigger for an already-tracked key returns
early (dropped); otherwise the key is added; the promise's `finally` deletes
the key. -/
def backgroundRefreshStep (inFlight : List String) :
    RefreshEvent → List String
  | .trigger k => if k ∈ inFlight then inFlight else inFlight ++ [k]
  | .settle k => inFlight.filter (fun x => x != k)

/-- The in-flight key set reached from a fresh client (empty map) after a
sequence of trigger/settle events. -/
def runBackgroundEvents (evs : List RefreshEvent) : List String :=
  evs.foldl backgroundRefreshStep []

/-! ## File validation (`fileValidation.ts`) -/

/-- A selected `File` object: name, size in bytes, MIME type, `lastModified`
timestamp. -/
structure JsFile where
  name : String
  size : Nat
  mime : String
  lastModified : Nat
deriving DecidableEq

/-- `FileValidationConfig`. -/
structure FileValidationConfig where
  maxSize : Nat
  allowedTypes : List String
  allowedExtensions : List String
  maxFiles : Option Nat
deriving DecidableEq

/-- `DEFAULT_VALIDATION_CONFIG`. -/
def DEFAULT_VALIDATION_CONFIG : FileValidationConfig :=
  { maxSize := 10 * 1024 * 1024,
    allowedTypes :=
      ["application/pdf", "application/msword",
       "application/vnd.openxmlformats-officedocument.wordprocessingml.document",
       "text/plain", "text/markdown", "application/rtf"],
    allowedExtensions := [".pdf", ".doc", ".docx", ".txt", ".md", ".rtf"],
    maxFiles := some 10 }

/-- Lower-casing as used on ASCII file names (`toLowerCase`). -/
def jsToLower (s : String) : String := String.mk (s.data.map Char.toLower)

/-- The last piece of `name.split('.')` (`.pop()`): the suffix after the last
dot, the whole name when there is no dot, empty after a trailing dot. -/
def lastSplitPiece : List Char → List Char → List Char
  | acc, [] => acc
  | acc, c :: t =>
    if c = '.' then lastSplitPiece [] t else lastSplitPiece (acc ++ [c]) t

/-- The extension computed by `getFileInfo`:
`'.' + file.name.split('.').pop()?.toLowerCase()`. -/
def fileExtension (f : JsFile) : String :=
  "." ++ jsToLower (String.mk (lastSplitPiece [] f.name.data))

/-- Per-file validation failures of `validateFile`.  The source pushes a
localized formatted message for each; the messages are abstracted to these
tags (see the header), in the same order the source pushes them. -/
inductive FileError where
  | tooLarge
  | badType
  | badExtension
  | emptyFile
  | suspiciousName
deriving DecidableEq

/-- Rendering of an abstracted validation error, stable stand-in for the
localized message text. -/
def FileError.render : FileError → String
  | .tooLarge => "file-too-large"
  | .badType => "unsupported-mime-type"
  | .badExtension => "unsupported-extension"
  | .emptyFile => "empty-file"
  | .suspiciousName => "suspicious-file-name"

/-- The executable-extension suffixes of the first suspicious-name pattern
`/\.(exe|bat|cmd|scr|com|pif|vbs|js|jar|sh)$/i`. -/
def suspiciousExtensions : List String :=
  [".exe", ".bat", ".cmd", ".scr", ".com", ".pif", ".vbs", ".js", ".jar", ".sh"]

/-- A character matched by `/[<>:"|?*\x00-\x1f]/`. -/
def isSuspiciousChar (c : Char) : Bool :=
  c ∈ ['<', '>', ':', '"', '|', '?', '*'] || c.toNat < 0x20

/-- Suffix test on character lists (JavaScript `endsWith`). -/
def listEndsWith (l suf : List Char) : Bool :=
  l.drop (l.length - suf.length) == suf

/-- Prefix test on character lists (JavaScript `startsWith`). -/
def listStartsWith (l pre : List Char) : Bool :=
  l.take pre.length == pre

/-- Whether any of the three suspicious-name patterns matches (the source
pushes a single error and breaks after the first match). -/
def hasSuspiciousName (name : String) : Bool :=
  suspiciousExtensions.any (fun suf => listEndsWith (jsToLower name).data suf.data) ||
    listStartsWith name.data ['.'] || name.data.any isSuspiciousChar

/-- `FileValidationResult` with the file attached (shape of the entries of
`validateFiles(...).results`). -/
structure FileValidationResult where
  file : JsFile
  isValid : Bool
  errors : List FileError
  warningCount : Nat
deriving DecidableEq

/-- `validateFile(file, config)`.  The large-file warning compares against
`config.maxSize * 0.8`; the floating-point product is modelled exactly over
`ℚ` (warnings are not consumed by any claim). -/
def validateFile (f : JsFile) (config : FileValidationConfig) :
    FileValidationResult :=
  let errors :=
    (if f.size > config.maxSize then [FileError.tooLarge] else []) ++
    (if !config.allowedTypes.isEmpty && !(config.allowedTypes.contains f.mime)
      then [FileError.badType] else []) ++
    (if !config.allowedExtensions.isEmpty &&
        !(config.allowedExtensions.contains (fileExtension f))
      then [FileError.badExtension] else []) ++
    (if f.size = 0 then [FileError.emptyFile] else []) ++
    (if hasSuspiciousName f.name then [FileError.suspiciousName] else [])
  let warningCount := if (f.size : ℚ) > (config.maxSize : ℚ) * 0.8 then 1 else 0
  { file := f, isValid := errors.isEmpty, errors := errors,
    warningCount := warningCount }

/-- Batch-level failures of `validateFiles`, abstracted like `FileError`. -/
inductive GlobalError where
  | tooManyFiles
  | duplicateNames
  | totalTooLarge
deriving DecidableEq

/-- JavaScript truthiness of an optional number (`undefined` and `0` falsy). -/
def jsOptNatTruthy (x : Option Nat) : Bool := x.getD 0 != 0

/-- The duplicate-name detection of `validateFiles`: lowered names whose first
occurrence index differs from their own index. -/
def jsDuplicateNames (names : List String) : List String :=
  (names.enum.filter (fun p => names.indexOf p.2 != p.1)).map (fun p => p.2)

/-- Result shape of `validateFiles`. -/
structure BatchValidation where
  isValid : Bool
  results : List FileValidationResult
  globalErrors : List GlobalError
  totalSize : Nat
deriving DecidableEq

/-- `validateFiles(files, config)`. -/
def validateFiles (files : List JsFile) (config : FileValidationConfig) :
    BatchValidation :=
  let results := files.map (fun f => validateFile f config)
  let totalSize := (files.map (fun f => f.size)).sum
  let maxTotalSize :=
    config.maxSize * (let m := config.maxFiles.getD 0; if m = 0 then 10 else m)
  let globalErrors :=
    (if jsOptNatTruthy config.maxFiles &&
        decide (files.length > config.maxFiles.getD 0)
      then [GlobalError.tooManyFiles] else []) ++
    (if !(jsDuplicateNames (files.map (fun f => jsToLower f.name))).isEmpty
      then [GlobalError.duplicateNames] else []) ++
    (if totalSize > maxTotalSize then [GlobalError.totalTooLarge] else [])
  { isValid := globalErrors.isEmpty && results.all (fun r => r.isValid),
    results := results, globalErrors := globalErrors, totalSize := totalSize }

/-! ## Upload manager (`useFileUpload`) -/

/-- The `status` field of `UploadProgress`. -/
inductive UStatus where
  | pending
  | uploading
  | completed
  | error
  | cancelled
deriving DecidableEq

/-- `UploadProgress` of the source. -/
structure UploadProgress where
  fileId : String
  fileName : String
  progress : Nat
  uploaded : Nat
  total : Nat
  speed : ℚ
  status : UStatus
  errorMsg : Option String
deriving DecidableEq

/-- A `Partial<UploadProgress>` update as passed to `updateProgress`; `none`
fields are absent from the update object. -/
structure ProgressUpdate where
  progress : Option Nat := none
  uploaded : Option Nat := none
  total : Option Nat := none
  speed : Option ℚ := none
  status : Option UStatus := none
  errorMsg : Option (Option String) := none
deriving DecidableEq

/-- The spread merge `{ ...current, ...updates }`. -/
def applyUpdate (u : ProgressUpdate) (p : UploadProgress) : UploadProgress :=
  { fileId := p.fileId, fileName := p.fileName,
    progress := u.progress.getD p.progress,
    uploaded := u.uploaded.getD p.uploaded,
    total := u.total.getD p.total,
    speed := u.speed.getD p.speed,
    status := u.status.getD p.status,
    errorMsg := u.errorMsg.getD p.errorMsg }

/-- `updateProgress(fileId, updates)`: merge into the tracked entry when one
exists, otherwise do nothing. -/
def updateProgress (fileId : String) (u : ProgressUpdate)
    (pm : List (String × UploadProgress)) : List (String × UploadProgress) :=
  pm.map (fun kv => if kv.1 = fileId then (kv.1, applyUpdate u kv.2) else kv)

/-- The mutable refs and state of one `useFileUpload` instance: the progress
map, the pending upload queue, the active-upload id set, and the
`AbortController` map (value `true` once `abort()` has been called). -/
structure UploadState where
  progressMap : List (String × UploadProgress)
  queue : List String
  active : List String
  controllers : List (String × Bool)
deriving DecidableEq

/-- `generateFileId(file)`. -/
def generateFileId (f : JsFile) : String :=
  f.name ++ "_" ++ toString f.size ++ "_" ++ toString f.lastModified

/-- `selectFiles(files)`: validate the batch and initialize one progress entry
per file.  Every entry's status is `'pending'` when the WHOLE batch validated
and `'error'` otherwise; the entry's error text joins the file's own
validation messages (empty for a valid file). -/
def selectFiles (files : List JsFile) (config : FileValidationConfig) :
    BatchValidation × UploadState :=
  let validation := validateFiles files config
  (validation,
    { progressMap := files.map (fun f =>
        (generateFileId f,
          { fileId := generateFileId f, fileName := f.name, progress := 0,
            uploaded := 0, total := f.size, speed := 0,
            status := if validation.isValid then .pending else .error,
            errorMsg := (validation.results.find? (fun r => r.file == f)).map
              (fun r => String.intercalate ", " (r.errors.map FileError.render)) })),
      queue := [], active := [], controllers := [] })

/-- The synchronous prefix of `uploadSingleFile(file)` (everything before
`await fetch`): register a fresh `AbortController` and mark the task
`'uploading'`. -/
def startSingleUpload (f : JsFile) (st : UploadState) : UploadState :=
  let fileId := generateFileId f
  { st with
    controllers := jsMapSet st.controllers fileId false,
    progressMap :=
      updateProgress fileId { status := some .uploading } st.progressMap }

/-- JavaScript `Set.add`. -/
def jsSetAdd (s : List String) (x : String) : List String :=
  if x ∈ s then s else s ++ [x]

/-- The `while` loop of `processUploadQueue`, structurally recursive on the
queue: while the queue is non-empty and fewer than `maxConcurrentUploads`
uploads are active, shift the next id, look its file up in `selectedFiles`,
add it to the active set and fire `uploadSingleFile` without awaiting. -/
def processQueueAux (files : List JsFile) (maxConcurrentUploads : Nat) :
    List String → List String → List (String × UploadProgress) →
    List (String × Bool) →
    List String × List String × List (String × UploadProgress) ×
      List (String × Bool)
  | [], active, pm, ctr => ([], active, pm, ctr)
  | fileId :: rest, active, pm, ctr =>
    if active.length < maxConcurrentUploads then
      match files.find? (fun f => generateFileId f == fileId) with
      | none => processQueueAux files maxConcurrentUploads rest active pm ctr
      | some f =>
        let st1 := startSingleUpload f
          { progressMap := pm, queue := rest, active := jsSetAdd active fileId,
            controllers := ctr }
        processQueueAux files maxConcurrentUploads rest st1.active
          st1.progressMap st1.controllers
    else (fileId :: rest, active, pm, ctr)

/-- `processUploadQueue()` run to completion of its synchronous loop. -/
def processUploadQueue (files : List JsFile) (maxConcurrentUploads : Nat)
    (st : UploadState) : UploadState :=
  let r := processQueueAux files maxConcurrentUploads st.queue st.active
    st.progressMap st.controllers
  { progressMap := r.2.2.1, queue := r.1, active := r.2.1, controllers := r.2.2.2 }

/-- The default `maxConcurrentUploads` of `useFileUpload`. -/
def defaultMaxConcurrentUploads : Nat := 3

/-- The synchronous prefix of `uploadFiles()`: return unchanged when the batch
failed validation or is empty; otherwise initialize the queue with every
file id, run `processUploadQueue`, and then — building the completion
`promises` — call `uploadSingleFile(file)` once more for EVERY selected file,
each such call synchronously marking its task `'uploading'` before suspending
at `fetch`. -/
def uploadFilesStart (files : List JsFile) (maxConcurrentUploads : Nat)
    (validation : BatchValidation) (st : UploadState) : UploadState :=
  if !validation.isValid || files.isEmpty then st
  else
    let st1 := { st with queue := files.map generateFileId }
    let st2 := processUploadQueue files maxConcurrentUploads st1
    files.foldl (fun s f => startSingleUpload f s) st2

/-- The per-status counts of `getUploadStats()`: number of tracked tasks in
the given status. -/
def countByStatus (st : UploadState) (s : UStatus) : Nat :=
  ((st.progressMap.map (fun kv => kv.2)).filter (fun p => p.status == s)).length

/-- The literal error text stored by cancellation paths. -/
def cancelMessage : String := "Загрузка отменена"

/-- `cancelUpload(fileId)`: abort the task's `AbortController` when one is
registered, remove the id from the pending queue, and unconditionally merge
`{ status: 'cancelled', error: 'Загрузка отменена' }` into the task's
progress entry. -/
def cancelUpload (fileId : String) (st : UploadState) : UploadState :=
  { st with
    controllers :=
      match lookupKV st.controllers fileId with
      | some _ => jsMapSet st.controllers fileId true
      | none => st.controllers,
    queue := st.queue.filter (fun id => id != fileId),
    progressMap :=
      updateProgress fileId
        { status := some .cancelled, errorMsg := some (some cancelMessage) }
        st.progressMap }

/-! ## Optimistic updates (`useOptimisticUpdate`) -/

/-- `OptimisticState<T>` of the source; the error slot holds the converted
`NetworkError` value. -/
structure OptimisticState (α : Type) where
  data : α
  loading : Bool
  error : Option JsError
  isOptimistic : Bool
deriving DecidableEq

/-- One `useOptimisticUpdate` instance: the React state, the
`originalDataRef` remembered for rollback, the pending rollback timer (delay
and the captured error) and the configured `rollbackDelay`. -/
structure OptimisticController (α : Type) where
  state : OptimisticState α
  originalData : α
  rollbackTimer : Option (Nat × JsError)
  rollbackDelay : Nat
deriving DecidableEq

/-- The default `rollbackDelay` (milliseconds). -/
def defaultRollbackDelay : Nat := 3000

/-- The synchronous prefix of `executeOptimisticUpdate(optimisticData, _)`:
clear any pending rollback timer, remember the current data in
`originalDataRef`, and show the speculative value immediately. -/
def applyOptimistic {α : Type} (c : OptimisticController α) (optimisticData : α) :
    OptimisticController α :=
  { c with
    rollbackTimer := none,
    originalData := c.state.data,
    state :=
      { data := optimisticData, loading := true, error := none,
        isOptimistic := true } }

/-- The failure branch of `executeOptimisticUpdate`: schedule the rollback
timeout (capturing the error) and surface the error while still showing the
optimistic data. -/
def failOptimistic {α : Type} (c : OptimisticController α) (e : JsError) :
    OptimisticController α :=
  { c with
    rollbackTimer := some (c.rollbackDelay, e),
    state := { c.state with
               loading := false,
               error := some e,
               isOptimistic := true } }

/-- The rollback timeout firing (only possible while a timer is pending, i.e.
no later `executeOptimisticUpdate` or explicit rollback cleared it): revert
`data` to the remembered original value. -/
def fireRollback {α : Type} (c : OptimisticController α) :
    OptimisticController α :=
  match c.rollbackTimer with
  | none => c
  | some (_, e) =>
    { c with
      rollbackTimer := none,
      state := { data := c.originalData, loading := false, error := some e,
                 isOptimistic := false } }

/-- The success branch of `executeOptimisticUpdate`: adopt the authoritative
result. -/
def succeedOptimistic {α : Type} (c : OptimisticController α) (result : α) :
    OptimisticController α :=
  { c with
    state := { data := result, loading := false, error := none,
               isOptimistic := false } }

/-! ## Concrete instances used in statements below -/

/-- A small valid text file. -/
def demoFileA : JsFile :=
  { name := "a.txt", size := 100, mime := "text/plain", lastModified := 1 }

/-- A second valid text file. -/
def demoFileB : JsFile :=
  { name := "b.txt", size := 100, mime := "text/plain", lastModified := 1 }

/-- A third valid text file. -/
def demoFileC : JsFile :=
  { name := "c.txt", size := 100, mime := "text/plain", lastModified := 1 }

/-- A fourth valid text file. -/
def demoFileD : JsFile :=
  { name := "d.txt", size := 100, mime := "text/plain", lastModified := 1 }

/-- A batch of four valid files (one more than the default concurrency
bound). -/
def demoBatch : List JsFile := [demoFileA, demoFileB, demoFileC, demoFileD]

/-- A file failing validation (wrong extension, wrong MIME type, suspicious
name). -/
def demoBadFile : JsFile :=
  { name := "virus.exe", size := 100, mime := "application/octet-stream",
    lastModified := 2 }

/-- A batch with one valid and one invalid file. -/
def demoMixedBatch : List JsFile := [demoFileA, demoBadFile]

/-- A task that finished uploading successfully. -/
def demoCompletedEntry : UploadProgress :=
  { fileId := "report.pdf_100_5", fileName := "report.pdf", progress := 100,
    uploaded := 100, total := 100, speed := 0, status := .completed,
    errorMsg := none }

/-- An upload-manager state holding only the completed task (its
`AbortController` was deleted in the `finally` block, and it is not
queued). -/
def demoCompletedState : UploadState :=
  { progressMap := [("report.pdf_100_5", demoCompletedEntry)], queue := [],
    active := [], controllers := [] }

/-- An upload-manager state holding the completed task already overwritten by
one `cancelUpload` call. -/
def demoCancelledState : UploadState :=
  { progressMap := [("report.pdf_100_5",
      { demoCompletedEntry with
        status := .cancelled,
        errorMsg := some cancelMessage })],
    queue := [], active := [], controllers := [] }

/-- A cache config with `maxSize = 3`. -/
def demoCacheConfig : CacheConfig := { defaultTTL := 300000, maxSize := 3 }

/-- Four distinct fresh keys inserted into an initially empty cache bounded
at `maxSize = 3`. -/
def demoEvictionStore : CacheStore Nat :=
  ApiCache.setByKey demoCacheConfig 3
    (ApiCache.setByKey demoCacheConfig 2
      (ApiCache.setByKey demoCacheConfig 1
        (ApiCache.setByKey demoCacheConfig 0 [] "k0" 0 none) "k1" 1 none)
      "k2" 2 none)
    "k3" 3 none

/-- A raw axios-style 400 client error, as rejected by the transport. -/
def demoRaw400 : JsError := JsError.ofStatus "Request failed with status code 400" 400

/-- A raw axios-style 500 server error. -/
def demoRaw500 : JsError := JsError.ofStatus "Request failed with status code 500" 500

/-- The request context of a dashboard GET. -/
def demoDashboardCtx : ErrorContext :=
  { url := some "/api/v1/dashboard/stats", method := some "GET", status := none,
    attempt := none, maxAttempts := none }

/-- The standard retry profile with jitter disabled. -/
def demoNoJitterConfig : RetryConfig :=
  { maxAttempts := 3, baseDelay := 1000, maxDelay := 5000,
    exponentialBase := 2, jitter := false }

/-! ## Association-list lemmas -/

/-- The keys of an association list, in insertion order. -/
def keysOf {β : Type} (l : List (String × β)) : List String := l.map Prod.fst

@[simp]
theorem keysOf_nil {β : Type} : keysOf ([] : List (String × β)) = [] := rfl

@[simp]
theorem keysOf_cons {β : Type} (kv : String × β) (t : List (String × β)) :
    keysOf (kv :: t) = kv.1 :: keysOf t := rfl

@[simp]
theorem keysOf_append {β : Type} (l₁ l₂ : List (String × β)) :
    keysOf (l₁ ++ l₂) = keysOf l₁ ++ keysOf l₂ := by
  simp [keysOf]

theorem length_keysOf {β : Type} (l : List (String × β)) :
    (keysOf l).length = l.length := by
  simp [keysOf]

theorem lookupKV_eq_none_of_not_mem {β : Type} {l : List (String × β)}
    {k : String} (h : k ∉ keysOf l) : lookupKV l k = none := by
  induction l with
  | nil => rfl
  | cons kv t ih =>
    simp only [keysOf_cons, List.mem_cons, not_or] at h
    have h1 : ¬ kv.1 = k := fun hk => h.1 hk.symm
    simp [lookupKV, h1, ih h.2]

theorem lookupKV_append_of_not_mem {β : Type} {l₁ l₂ : List (String × β)}
    {k : String} (h : k ∉ keysOf l₁) :
    lookupKV (l₁ ++ l₂) k = lookupKV l₂ k := by
  induction l₁ with
  | nil => rfl
  | cons kv t ih =>
    simp only [keysOf_cons, List.mem_cons, not_or] at h
    have h1 : ¬ kv.1 = k := fun hk => h.1 hk.symm
    simp [List.cons_append, lookupKV, h1, ih h.2]

theorem keysOf_filter_sublist {β : Type} (l : List (String × β))
    (p : String × β → Bool) :
    List.Sublist (keysOf (l.filter p)) (keysOf l) :=
  List.Sublist.map Prod.fst (List.filter_sublist l)

theorem keysOf_drop_sublist {β : Type} (l : List (String × β)) (n : Nat) :
    List.Sublist (keysOf (l.drop n)) (keysOf l) :=
  List.Sublist.map Prod.fst (List.drop_sublist n l)

theorem lookupKV_jsMapSet_self {β : Type} (l : List (String × β)) (k : String)
    (v : β) : lookupKV (jsMapSet l k v) k = some v := by
  induction l with
  | nil => simp [jsMapSet, lookupKV]
  | cons kv t ih =>
    by_cases h : kv.1 = k
    · simp [jsMapSet, h, lookupKV]
    · simp [jsMapSet, h, lookupKV, ih]

theorem jsMapSet_eq_append_of_not_mem {β : Type} {l : List (String × β)}
    {k : String} (v : β) (h : k ∉ keysOf l) :
    jsMapSet l k v = l ++ [(k, v)] := by
  induction l with
  | nil => rfl
  | cons kv t ih =>
    simp only [keysOf_cons, List.mem_cons, not_or] at h
    have h1 : ¬ kv.1 = k := fun hk => h.1 hk.symm
    simp [jsMapSet, h1, ih h.2]

theorem keysOf_jsMapSet_of_mem {β : Type} {l : List (String × β)} {k : String}
    (v : β) (h : k ∈ keysOf l) : keysOf (jsMapSet l k v) = keysOf l := by
  induction l with
  | nil => simp at h
  | cons kv t ih =>
    by_cases hk : kv.1 = k
    · simp [jsMapSet, hk]
    · have ht : k ∈ keysOf t := by
        simp only [keysOf_cons, List.mem_cons] at h
        exact h.resolve_left (fun hh => hk hh.symm)
      simp [jsMapSet, hk, ih ht]

theorem length_jsMapSet_of_mem {β : Type} {l : List (String × β)} {k : String}
    (v : β) (h : k ∈ keysOf l) : (jsMapSet l k v).length = l.length := by
  have h2 := congrArg List.length (keysOf_jsMapSet_of_mem v h)
  simpa [length_keysOf] using h2

theorem nodup_keysOf_jsMapSet {β : Type} {l : List (String × β)} {k : String}
    (v : β) (hnd : (keysOf l).Nodup) : (keysOf (jsMapSet l k v)).Nodup := by
  by_cases h : k ∈ keysOf l
  · rw [keysOf_jsMapSet_of_mem v h]; exact hnd
  · rw [jsMapSet_eq_append_of_not_mem v h, keysOf_append]
    refine List.Nodup.append hnd (List.nodup_singleton k) ?_
    intro a ha hb
    simp only [keysOf_cons, keysOf_nil, List.mem_singleton] at hb
    exact h (hb ▸ ha)

theorem lookupKV_filter_of_nodup {β : Type} {l : List (String × β)}
    (p : String × β → Bool) {k : String} (hnd : (keysOf l).Nodup) :
    lookupKV (l.filter p) k =
      match lookupKV l k with
      | some v => if p (k, v) then some v else none
      | none => none := by
  induction l with
  | nil => rfl
  | cons kv t ih =>
    obtain ⟨a, b⟩ := kv
    simp only [keysOf_cons, List.nodup_cons] at hnd
    by_cases hak : a = k
    · subst hak
      cases hp : p (a, b) with
      | true => simp [List.filter_cons, hp, lookupKV]
      | false =>
        have hnone : lookupKV (List.filter p t) a = none :=
          lookupKV_eq_none_of_not_mem
            (fun hm => hnd.1 ((keysOf_filter_sublist t p).subset hm))
        simp [List.filter_cons, hp, lookupKV, hnone]
    · cases hp : p (a, b) with
      | true => simp [List.filter_cons, hp, lookupKV, hak, ih hnd.2]
      | false => simp [List.filter_cons, hp, lookupKV, hak, ih hnd.2]

/-! ## Cache lemmas -/

theorem cleanup_length_le {α : Type} (cfg : CacheConfig) (now : Int)
    (store : CacheStore α) :
    (ApiCache.cleanup cfg now store).length ≤ cfg.maxSize := by
  unfold ApiCache.cleanup
  by_cases h :
      (store.filter (fun kv => !(ApiCache.isExpired now kv.2))).length >
        cfg.maxSize
  · simp only [if_pos h, List.length_drop]
    omega
  · simp only [if_neg h]
    omega

theorem cleanup_keysOf_sublist {α : Type} (cfg : CacheConfig) (now : Int)
    (store : CacheStore α) :
    List.Sublist (keysOf (ApiCache.cleanup cfg now store)) (keysOf store) := by
  unfold ApiCache.cleanup
  by_cases h :
      (store.filter (fun kv => !(ApiCache.isExpired now kv.2))).length >
        cfg.maxSize
  · simp only [if_pos h]
    exact (keysOf_drop_sublist _ _).trans (keysOf_filter_sublist _ _)
  · simp only [if_neg h]
    exact keysOf_filter_sublist _ _

theorem nodup_keysOf_cleanup {α : Type} {cfg : CacheConfig} {now : Int}
    {store : CacheStore α} (hnd : (keysOf store).Nodup) :
    (keysOf (ApiCache.cleanup cfg now store)).Nodup :=
  List.Nodup.sublist (cleanup_keysOf_sublist cfg now store) hnd

theorem cleanup_lookup_some {α : Type} {cfg : CacheConfig} {now : Int}
    {store : CacheStore α} {k : String} {it : CacheItem α}
    (hnd : (keysOf store).Nodup) (hlen : store.length ≤ cfg.maxSize)
    (hsome : lookupKV store k = some it) :
    lookupKV (ApiCache.cleanup cfg now store) k =
      if !(ApiCache.isExpired now it) then some it else none := by
  unfold ApiCache.cleanup
  have hfl :
      (store.filter (fun kv => !(ApiCache.isExpired now kv.2))).length ≤
        cfg.maxSize :=
    le_trans (List.length_filter_le _ _) hlen
  rw [if_neg (by omega)]
  have h := lookupKV_filter_of_nodup
    (fun kv => !(ApiCache.isExpired now kv.2)) (k := k) hnd
  rw [hsome] at h
  simpa using h

theorem setByKey_lookup_self {α : Type} (cfg : CacheConfig)
    (store : CacheStore α) (k : String) (v : α) (ts T : Int)
    (hnd : (keysOf store).Nodup) (hlen : store.length ≤ cfg.maxSize)
    (hmax : 1 ≤ cfg.maxSize) (hT : 0 < T) :
    lookupKV (ApiCache.setByKey cfg ts store k v (some T)) k =
      some { data := v, timestamp := ts, ttl := T } := by
  have httl : jsOrInt (some T) cfg.defaultTTL = T := by
    simp [jsOrInt, hT.ne']
  unfold ApiCache.setByKey
  rw [httl]
  set item : CacheItem α := { data := v, timestamp := ts, ttl := T } with hitem
  have hfresh : ApiCache.isExpired ts item = false := by
    simp only [ApiCache.isExpired, hitem, decide_eq_false_iff_not, not_lt]
    omega
  by_cases hk : k ∈ keysOf store
  · have hnd' : (keysOf (jsMapSet store k item)).Nodup := by
      rw [keysOf_jsMapSet_of_mem item hk]; exact hnd
    have hlen' : (jsMapSet store k item).length ≤ cfg.maxSize := by
      rw [length_jsMapSet_of_mem item hk]; exact hlen
    rw [cleanup_lookup_some hnd' hlen' (lookupKV_jsMapSet_self store k item)]
    simp [hfresh]
  · have happ : jsMapSet store k item = store ++ [(k, item)] :=
      jsMapSet_eq_append_of_not_mem item hk
    have hpure :
        (jsMapSet store k item).filter (fun kv => !(ApiCache.isExpired ts kv.2)) =
          store.filter (fun kv => !(ApiCache.isExpired ts kv.2)) ++ [(k, item)] := by
      rw [happ, List.filter_append]
      simp [hfresh]
    set F := store.filter (fun kv => !(ApiCache.isExpired ts kv.2)) with hF
    have hFk : k ∉ keysOf F := fun hm =>
      hk ((keysOf_filter_sublist store _).subset hm)
    have hFlen : F.length ≤ store.length := List.length_filter_le _ _
    simp only [ApiCache.cleanup]
    rw [hpure]
    by_cases hover : (F ++ [(k, item)]).length > cfg.maxSize
    · rw [if_pos hover]
      have hlenF : F.length = cfg.maxSize := by
        simp only [List.length_append, List.length_singleton] at hover
        omega
      have hdropn : (F ++ [(k, item)]).length - cfg.maxSize = 1 := by
        simp only [List.length_append, List.length_singleton]
        omega
      rw [hdropn, List.drop_append_eq_append_drop]
      have h10 : 1 - F.length = 0 := by omega
      rw [h10, List.drop_zero]
      have hFdk : k ∉ keysOf (F.drop 1) := fun hm =>
        hFk ((keysOf_drop_sublist F 1).subset hm)
      rw [lookupKV_append_of_not_mem hFdk]
      simp [lookupKV]
    · rw [if_neg hover]
      rw [lookupKV_append_of_not_mem hFk]
      simp [lookupKV]

theorem setByKey_nodup {α : Type} {cfg : CacheConfig} {store : CacheStore α}
    {k : String} {v : α} {ts : Int} {ttlArg : Option Int}
    (hnd : (keysOf store).Nodup) :
    (keysOf (ApiCache.setByKey cfg ts store k v ttlArg)).Nodup := by
  unfold ApiCache.setByKey
  exact nodup_keysOf_cleanup (nodup_keysOf_jsMapSet _ hnd)

theorem setByKey_length_le {α : Type} (cfg : CacheConfig) (ts : Int)
    (store : CacheStore α) (k : String) (v : α) (ttlArg : Option Int) :
    (ApiCache.setByKey cfg ts store k v ttlArg).length ≤ cfg.maxSize :=
  cleanup_length_le cfg ts _

theorem getByKey_value_of_set {α : Type} {cfg : CacheConfig}
    {store : CacheStore α} {k : String} {v : α} {ts T now : Int}
    (hnd : (keysOf store).Nodup) (hlen : store.length ≤ cfg.maxSize)
    (hmax : 1 ≤ cfg.maxSize) (hT : 0 < T) :
    (ApiCache.getByKey cfg now (ApiCache.setByKey cfg ts store k v (some T)) k).1 =
      if now - ts ≤ T then some v else none := by
  have hndS : (keysOf (ApiCache.setByKey cfg ts store k v (some T))).Nodup :=
    setByKey_nodup hnd
  have hlenS : (ApiCache.setByKey cfg ts store k v (some T)).length ≤ cfg.maxSize :=
    setByKey_length_le cfg ts store k v (some T)
  have hlook := setByKey_lookup_self cfg store k v ts T hnd hlen hmax hT
  simp only [ApiCache.getByKey]
  rw [cleanup_lookup_some hndS hlenS hlook]
  by_cases hexp : now - ts ≤ T
  · have hne : ApiCache.isExpired now { data := v, timestamp := ts, ttl := T } = false := by
      simp only [ApiCache.isExpired, decide_eq_false_iff_not, not_lt]
      omega
    simp [hne, hexp]
  · have hye : ApiCache.isExpired now { data := v, timestamp := ts, ttl := T } = true := by
      simp only [ApiCache.isExpired, decide_eq_true_eq]
      omega
    simp [hye, hexp]

theorem getByKey_store_eq_cleanup {α : Type} (cfg : CacheConfig) (now : Int)
    (store : CacheStore α) (key : String) :
    (ApiCache.getByKey cfg now store key).2 = ApiCache.cleanup cfg now store := by
  simp only [ApiCache.getByKey]
  cases hscr : lookupKV (ApiCache.cleanup cfg now store) key <;> simp [hscr]

/-- C2, counterexample: two params objects with identical key-value pairs
(they are permutations of each other) in different insertion orders produce
DIFFERENT cache keys, because `generateKey` serializes with a plain
`JSON.stringify` that preserves property insertion order. -/
theorem C2_counterexample :
    List.Perm [("a", JsonPrim.str "1"), ("b", JsonPrim.str "2")]
      [("b", JsonPrim.str "2"), ("a", JsonPrim.str "1")] ∧
    ApiCache.generateKey "/api/v1/search"
        (some [("a", JsonPrim.str "1"), ("b", JsonPrim.str "2")]) ≠
      ApiCache.generateKey "/api/v1/search"
        (some [("b", JsonPrim.str "2"), ("a", JsonPrim.str "1")]) := by
  constructor
  · exact List.Perm.swap _ _ []
  · decide

/-- C2 (amended): the cache key of `ApiCache.generateKey` is
`url + ':' + JSON.stringify(params)`, so two requests to the same endpoint
resolve to the same cache entry exactly when their params serialize to the
same insertion-ordered JSON string — NOT order-independently; params with the
same key-value pairs in a different insertion order yield a different key
whenever their serializations differ. -/
theorem C2_cache_key_insertion_order (url : String)
    (p q : Option (List (String × JsonPrim))) :
    ApiCache.generateKey url p = ApiCache.generateKey url q ↔
      paramStringOf p = paramStringOf q := by
  unfold ApiCache.generateKey
  constructor
  · intro h
    have hd := congrArg String.data h
    simp only [String.data_append] at hd
    exact String.ext (List.append_cancel_left hd)
  · intro h
    rw [h]

/-- C5, counterexample: an entry stored at time `0` with `ttl = 100` is still
returned by `get` at time `100`, i.e. exactly at the boundary
`now - storedAt = T` where the claim requires absence (`isExpired` uses a
strict `>`). -/
theorem C5_counterexample :
    ApiCache.getValue demoCacheConfig 100
      (ApiCache.setStore demoCacheConfig 0 ([] : CacheStore Nat)
        "/api/v1/documents" 7 none (some 100)) "/api/v1/documents" none =
      some 7 := by
  decide

/-- C5 (amended): for an entry stored via `ApiCache.set` with time-to-live
`T > 0` into a store satisfying the cache invariants (distinct keys, within
the size bound, `maxSize ≥ 1`), a `get` of the same endpoint and params at
time `now` returns the stored value iff `now - storedAt ≤ T`: present up to
AND INCLUDING the boundary, absent strictly after it. -/
theorem C5_ttl_boundary_amended {α : Type} (cfg : CacheConfig)
    (store : CacheStore α) (url : String)
    (params : Option (List (String × JsonPrim))) (v : α) (ts T now : Int)
    (hnd : (keysOf store).Nodup) (hlen : store.length ≤ cfg.maxSize)
    (hmax : 1 ≤ cfg.maxSize) (hT : 0 < T) :
    ApiCache.getValue cfg now
      (ApiCache.setStore cfg ts store url v params (some T)) url params =
      if now - ts ≤ T then some v else none := by
  unfold ApiCache.getValue ApiCache.setStore
  exact getByKey_value_of_set hnd hlen hmax hT

/-- C5, witness: the amended theorem applied to a concrete store, at the
boundary (value still present) and one tick later (absent). -/
theorem C5_ttl_boundary_amended_witness :
    ApiCache.getValue demoCacheConfig 100
        (ApiCache.setStore demoCacheConfig 0 ([] : CacheStore Nat)
          "/api/v1/documents" 7 none (some 100)) "/api/v1/documents" none =
      some 7 ∧
    ApiCache.getValue demoCacheConfig 101
        (ApiCache.setStore demoCacheConfig 0 ([] : CacheStore Nat)
          "/api/v1/documents" 7 none (some 100)) "/api/v1/documents" none =
      none := by
  constructor
  · rw [C5_ttl_boundary_amended demoCacheConfig [] "/api/v1/documents" none 7
      0 100 100 (by decide) (by decide) (by decide) (by decide)]
    decide
  · rw [C5_ttl_boundary_amended demoCacheConfig [] "/api/v1/documents" none 7
      0 100 101 (by decide) (by decide) (by decide) (by decide)]
    decide

/-- C9 (confirmed): after every mutating cache operation the store holds at
most `maxSize` entries — `set` and `get` end in `cleanup`, which enforces the
bound unconditionally; the deleting operations preserve it — and inserting
`maxSize + 1` distinct fresh keys into an empty store bounded at `maxSize = 3`
leaves exactly the `maxSize` most recent keys, the first-inserted key `"k0"`
being the one evicted. -/
theorem C9_size_bound :
    (∀ (α : Type) (cfg : CacheConfig) (now : Int) (store : CacheStore α)
        (url : String) (params : Option (List (String × JsonPrim))) (v : α)
        (ttlArg : Option Int),
      (ApiCache.setStore cfg now store url v params ttlArg).length ≤
        cfg.maxSize) ∧
    (∀ (α : Type) (cfg : CacheConfig) (now : Int) (store : CacheStore α)
        (url : String) (params : Option (List (String × JsonPrim))),
      (ApiCache.getStore cfg now store url params).length ≤ cfg.maxSize) ∧
    (∀ (α : Type) (cfg : CacheConfig) (store : CacheStore α) (url : String)
        (params : Option (List (String × JsonPrim))),
      store.length ≤ cfg.maxSize →
      (ApiCache.invalidate store url params).length ≤ cfg.maxSize) ∧
    (∀ (α : Type) (cfg : CacheConfig) (store : CacheStore α) (pat : String),
      store.length ≤ cfg.maxSize →
      (ApiCache.invalidatePattern store pat).length ≤ cfg.maxSize) ∧
    (∀ (α : Type) (cfg : CacheConfig) (store : CacheStore α),
      (ApiCache.clearStore store).length ≤ cfg.maxSize) ∧
    (keysOf demoEvictionStore = ["k1", "k2", "k3"] ∧
      lookupKV demoEvictionStore "k0" = none ∧
      demoEvictionStore.length = demoCacheConfig.maxSize) := by
  refine ⟨?_, ?_, ?_, ?_, ?_, ?_⟩
  · intro α cfg now store url params v ttlArg
    exact setByKey_length_le cfg now store _ v ttlArg
  · intro α cfg now store url params
    unfold ApiCache.getStore
    rw [getByKey_store_eq_cleanup]
    exact cleanup_length_le cfg now store
  · intro α cfg store url params h
    exact le_trans (List.length_filter_le _ _) h
  · intro α cfg store pat h
    exact le_trans (List.length_filter_le _ _) h
  · intro α cfg store
    simp [ApiCache.clearStore]
  · refine ⟨by decide, by decide, by decide⟩

/-- C9, witness: the conditional conjuncts of the size-bound theorem applied
to the concrete eviction store. -/
theorem C9_size_bound_witness :
    (ApiCache.invalidate demoEvictionStore "k1" none).length ≤
      demoCacheConfig.maxSize ∧
    (ApiCache.invalidatePattern demoEvictionStore "k").length ≤
      demoCacheConfig.maxSize := by
  constructor
  · exact C9_size_bound.2.2.1 Nat demoCacheConfig demoEvictionStore "k1" none
      (by decide)
  · exact C9_size_bound.2.2.2.1 Nat demoCacheConfig demoEvictionStore "k"
      (by decide)

/-! ## Upload-manager lemmas -/

theorem UploadState.extFields (a b : UploadState)
    (h1 : a.progressMap = b.progressMap) (h2 : a.queue = b.queue)
    (h3 : a.active = b.active) (h4 : a.controllers = b.controllers) : a = b := by
  cases a
  cases b
  simp only at h1 h2 h3 h4
  simp [h1, h2, h3, h4]

theorem optGetD_absorb {γ : Type} (o : Option γ) (x : γ) :
    o.getD (o.getD x) = o.getD x := by
  cases o <;> rfl

theorem applyUpdate_idem (u : ProgressUpdate) (p : UploadProgress) :
    applyUpdate u (applyUpdate u p) = applyUpdate u p := by
  simp [applyUpdate, optGetD_absorb]

theorem updateProgress_idem (fileId : String) (u : ProgressUpdate)
    (pm : List (String × UploadProgress)) :
    updateProgress fileId u (updateProgress fileId u pm) =
      updateProgress fileId u pm := by
  unfold updateProgress
  rw [List.map_map]
  apply List.map_congr_left
  intro kv _
  by_cases h : kv.1 = fileId
  · simp [Function.comp, h, applyUpdate_idem]
  · simp [Function.comp, h]

theorem jsMapSet_jsMapSet_same {β : Type} (l : List (String × β)) (k : String)
    (v w : β) : jsMapSet (jsMapSet l k v) k w = jsMapSet l k w := by
  induction l with
  | nil => simp [jsMapSet]
  | cons kv t ih =>
    by_cases h : kv.1 = k
    · simp [jsMapSet, h]
    · simp [jsMapSet, h, ih]

theorem filter_idem {γ : Type} (p : γ → Bool) (l : List γ) :
    (l.filter p).filter p = l.filter p := by
  apply List.filter_eq_self.mpr
  intro a ha
  exact (List.mem_filter.mp ha).2

/-- C3 (amended): `cancelUpload` is idempotent — cancelling the same task
twice leaves the state exactly as after the first cancellation — and it is a
no-op on a task that is already `'cancelled'` with the standard cancel
message, no longer queued and with no registered `AbortController`; but (see
the counterexample) it is NOT a no-op on the other terminal states: a
`'completed'` or `'error'` task has its status overwritten to `'cancelled'`
and its error text replaced, only the progress counters being preserved. -/
theorem C3_cancel_idempotent_amended :
    (∀ (st : UploadState) (fileId : String),
      cancelUpload fileId (cancelUpload fileId st) = cancelUpload fileId st) ∧
    (∀ (st : UploadState) (fileId : String),
      (∀ kv ∈ st.progressMap, kv.1 = fileId →
        kv.2.status = UStatus.cancelled ∧ kv.2.errorMsg = some cancelMessage) →
      fileId ∉ st.queue → lookupKV st.controllers fileId = none →
      cancelUpload fileId st = st) := by
  constructor
  · intro st fileId
    refine UploadState.extFields _ _ ?_ ?_ rfl ?_
    · exact updateProgress_idem fileId _ st.progressMap
    · exact filter_idem _ st.queue
    · cases h : lookupKV st.controllers fileId with
      | none => simp [cancelUpload, h]
      | some b =>
        simp [cancelUpload, h, lookupKV_jsMapSet_self, jsMapSet_jsMapSet_same]
  · intro st fileId hpm hq hc
    refine UploadState.extFields _ _ ?_ ?_ rfl ?_
    · show updateProgress fileId _ st.progressMap = st.progressMap
      unfold updateProgress
      have hfun : ∀ kv ∈ st.progressMap,
          (if kv.1 = fileId then
            (kv.1, applyUpdate
              { status := some UStatus.cancelled,
                errorMsg := some (some cancelMessage) } kv.2)
          else kv) = kv := by
        intro kv hkv
        by_cases h : kv.1 = fileId
        · obtain ⟨p1, p2⟩ := hpm kv hkv h
          have happ : applyUpdate
              { status := some UStatus.cancelled,
                errorMsg := some (some cancelMessage) } kv.2 = kv.2 := by
            obtain ⟨k1, p⟩ := kv
            obtain ⟨f1, f2, f3, f4, f5, f6, f7, f8⟩ := p
            simp only [applyUpdate, Option.getD]
            exact UploadProgress.mk.injEq .. ▸ ⟨rfl, rfl, rfl, rfl, rfl, rfl,
              p1.symm, p2.symm⟩
          rw [if_pos h, happ]
        · simp [h]
      calc st.progressMap.map _ = st.progressMap.map (fun kv => kv) :=
            List.map_congr_left hfun
        _ = st.progressMap := List.map_id' _
    · show st.queue.filter _ = st.queue
      apply List.filter_eq_self.mpr
      intro a ha
      simp only [bne_iff_ne, ne_eq]
      intro heq
      exact hq (heq ▸ ha)
    · simp [cancelUpload, hc]

/-- C3, witness: cancelling a task that one `cancelUpload` call already
cancelled leaves the state unchanged. -/
theorem C3_cancel_idempotent_amended_witness :
    cancelUpload "report.pdf_100_5" demoCancelledState = demoCancelledState :=
  C3_cancel_idempotent_amended.2 demoCancelledState "report.pdf_100_5"
    (by decide) (by decide) (by decide)

/-- C3, counterexample: cancelling a task in the terminal `'completed'` state
is NOT a no-op — `cancelUpload` unconditionally merges
`{ status: 'cancelled', error: 'Загрузка отменена' }` into the entry, so the
recorded status changes from `'completed'` to `'cancelled'`. -/
theorem C3_counterexample :
    (lookupKV demoCompletedState.progressMap "report.pdf_100_5").map
        (fun p => p.status) = some UStatus.completed ∧
    (lookupKV (cancelUpload "report.pdf_100_5" demoCompletedState).progressMap
        "report.pdf_100_5").map (fun p => p.status) = some UStatus.cancelled ∧
    UStatus.cancelled ≠ UStatus.completed := by
  decide

/-- C4 (amended): when ANY file of the batch fails validation, `selectFiles`
creates EVERY task of the batch — the valid files included — directly in
`'error'` state (the per-file error text still reflects each file's own
validation result), and `uploadFiles` returns without starting anything: no
task ever reaches `'uploading'`, no transport call is made, and no aggregate
completion report is produced.  Only a fully valid batch proceeds to
upload. -/
theorem C4_invalid_batch_all_error (files : List JsFile)
    (config : FileValidationConfig)
    (h : (validateFiles files config).isValid = false) :
    (∀ kv ∈ (selectFiles files config).2.progressMap,
      kv.2.status = UStatus.error) ∧
    (∀ (K : Nat) (st : UploadState),
      uploadFilesStart files K (validateFiles files config) st = st) := by
  constructor
  · intro kv hkv
    simp only [selectFiles] at hkv
    rcases List.mem_map.mp hkv with ⟨f, hf, rfl⟩
    simp [h]
  · intro K st
    simp [uploadFilesStart, h]

/-- C4, witness: for the concrete mixed batch (one valid file, one invalid
file) `uploadFiles` leaves the upload state untouched. -/
theorem C4_invalid_batch_all_error_witness :
    uploadFilesStart demoMixedBatch defaultMaxConcurrentUploads
        (validateFiles demoMixedBatch DEFAULT_VALIDATION_CONFIG)
        (selectFiles demoMixedBatch DEFAULT_VALIDATION_CONFIG).2 =
      (selectFiles demoMixedBatch DEFAULT_VALIDATION_CONFIG).2 :=
  (C4_invalid_batch_all_error demoMixedBatch DEFAULT_VALIDATION_CONFIG
      (by decide)).2 defaultMaxConcurrentUploads _

/-- C4, counterexample: in a batch where `virus.exe` fails validation and
`a.txt` passes, the VALID file's task is created in `'error'` state (the
claim requires it to proceed to upload), and starting the batch puts no task
into `'uploading'` (the claim requires the valid files to upload and an
aggregate report with one outcome per file). -/
theorem C4_counterexample :
    (validateFiles demoMixedBatch DEFAULT_VALIDATION_CONFIG).isValid = false ∧
    (validateFile demoFileA DEFAULT_VALIDATION_CONFIG).isValid = true ∧
    (lookupKV (selectFiles demoMixedBatch DEFAULT_VALIDATION_CONFIG).2.progressMap
        (generateFileId demoFileA)).map (fun p => p.status) =
      some UStatus.error ∧
    countByStatus
        (uploadFilesStart demoMixedBatch defaultMaxConcurrentUploads
          (selectFiles demoMixedBatch DEFAULT_VALIDATION_CONFIG).1
          (selectFiles demoMixedBatch DEFAULT_VALIDATION_CONFIG).2)
        UStatus.uploading = 0 := by
  decide

/-- C1 (code bug): with the default bound `maxConcurrentUploads = 3` and a
valid batch of 4 files, the synchronous start of `uploadFiles` leaves ALL 4
tasks in `'uploading'` simultaneously: after `processUploadQueue` admits the
first 3, the completion loop calls `uploadSingleFile` again for EVERY
selected file, bypassing the queue and the active-set bound entirely. -/
theorem C1_concurrency_bound_violated :
    defaultMaxConcurrentUploads = 3 ∧
    (validateFiles demoBatch DEFAULT_VALIDATION_CONFIG).isValid = true ∧
    demoBatch.length = 4 ∧
    countByStatus
        (uploadFilesStart demoBatch defaultMaxConcurrentUploads
          (selectFiles demoBatch DEFAULT_VALIDATION_CONFIG).1
          (selectFiles demoBatch DEFAULT_VALIDATION_CONFIG).2)
        UStatus.uploading = 4 := by
  decide

/-! ## Retry and background-refresh lemmas -/

theorem nodup_foldl_backgroundRefreshStep (evs : List RefreshEvent) :
    ∀ s : List String, s.Nodup →
      (evs.foldl backgroundRefreshStep s).Nodup := by
  induction evs with
  | nil => intro s hs; exact hs
  | cons ev t ih =>
    intro s hs
    refine ih _ ?_
    cases ev with
    | trigger k =>
      by_cases hk : k ∈ s
      · simpa [backgroundRefreshStep, hk] using hs
      · simp only [backgroundRefreshStep, if_neg hk]
        refine List.Nodup.append hs (List.nodup_singleton k) ?_
        intro a ha hb
        rw [List.mem_singleton] at hb
        exact hk (hb ▸ ha)
    | settle k =>
      exact List.Nodup.filter _ hs

theorem nodup_runBackgroundEvents (evs : List RefreshEvent) :
    (runBackgroundEvents evs).Nodup :=
  nodup_foldl_backgroundRefreshStep evs [] List.nodup_nil

/-- C8 (confirmed): per cache key of one `CachedApiClient`, at most one
background stale-while-revalidate refresh is in flight at any point (every
reachable in-flight set contains a key at most once); a trigger for a key
that is already in flight leaves the map unchanged (the duplicate request is
dropped, not queued); and only the settlement of the in-flight refresh
(`finally` deleting the key) releases the key, after which a new trigger is
admitted again. -/
theorem C8_single_inflight_refresh :
    (∀ (evs : List RefreshEvent) (k : String),
      (runBackgroundEvents evs).count k ≤ 1) ∧
    (∀ (s : List String) (k : String), k ∈ s →
      backgroundRefreshStep s (RefreshEvent.trigger k) = s) ∧
    (∀ (s : List String) (k : String),
      k ∉ backgroundRefreshStep s (RefreshEvent.settle k) ∧
      k ∈ backgroundRefreshStep
            (backgroundRefreshStep s (RefreshEvent.settle k))
            (RefreshEvent.trigger k)) := by
  refine ⟨?_, ?_, ?_⟩
  · intro evs k
    exact List.nodup_iff_count_le_one.mp (nodup_runBackgroundEvents evs) k
  · intro s k hk
    simp [backgroundRefreshStep, hk]
  · intro s k
    have hnot : k ∉ backgroundRefreshStep s (RefreshEvent.settle k) := by
      simp [backgroundRefreshStep, List.mem_filter]
    refine ⟨hnot, ?_⟩
    simp [backgroundRefreshStep, hnot]

/-- C8, witness: a second trigger for a key already in flight is dropped. -/
theorem C8_single_inflight_refresh_witness :
    backgroundRefreshStep ["/api/v1/dashboard/stats"]
        (RefreshEvent.trigger "/api/v1/dashboard/stats") =
      ["/api/v1/dashboard/stats"] :=
  C8_single_inflight_refresh.2.1 ["/api/v1/dashboard/stats"]
    "/api/v1/dashboard/stats" (by decide)

/-- C7 (confirmed): under `withRetry`, an error that `isRetryableError`
classifies non-retryable fails after exactly 1 attempt (with the terminal
error annotated with that attempt count); when every attempt fails
retryably and `maxAttempts = 3`, the operation fails only after exactly 3
attempts; and with jitter disabled the computed delays
`min(baseDelay * exponentialBase^(attempt-1), maxDelay)` are non-decreasing
across successive attempts (for a non-negative base delay and an exponential
base of at least 1, as in every shipped profile). -/
theorem C7_retry_counts_and_monotone_delays (cfg : RetryConfig)
    (ctx : ErrorContext) (rand : ℚ) :
    (∀ (δ : Type) (op : Nat → Except JsError δ) (e : JsError),
      1 ≤ cfg.maxAttempts → op 1 = .error e → isRetryableError e = false →
      (withRetry op cfg ctx rand).attemptsUsed = 1 ∧
      (withRetry op cfg ctx rand).result =
        .failed (terminalNetworkError e 1 cfg.maxAttempts ctx)) ∧
    (∀ (δ : Type) (op : Nat → Except JsError δ),
      cfg.maxAttempts = 3 →
      (∀ i, 1 ≤ i → i ≤ 3 → ∃ e, op i = .error e ∧ isRetryableError e = true) →
      (withRetry op cfg ctx rand).attemptsUsed = 3 ∧
      ∃ e, (withRetry op cfg ctx rand).result =
        .failed (terminalNetworkError e 3 3 ctx)) ∧
    (cfg.jitter = false → 0 ≤ cfg.baseDelay → 1 ≤ cfg.exponentialBase →
      ∀ a, 1 ≤ a →
        calculateDelay cfg rand a ≤ calculateDelay cfg rand (a + 1)) := by
  refine ⟨?_, ?_, ?_⟩
  · intro δ op e h1 hop hret
    obtain ⟨m, hm⟩ : ∃ m, cfg.maxAttempts = m + 1 :=
      ⟨cfg.maxAttempts - 1, by omega⟩
    unfold withRetry
    rw [hm]
    simp [withRetryLoop, hop, hret, hm]
  · intro δ op h3 hall
    obtain ⟨e1, he1, hr1⟩ := hall 1 (by omega) (by omega)
    obtain ⟨e2, he2, hr2⟩ := hall 2 (by omega) (by omega)
    obtain ⟨e3, he3, hr3⟩ := hall 3 (by omega) (by omega)
    unfold withRetry
    rw [h3]
    refine ⟨?_, ⟨e3, ?_⟩⟩ <;>
      simp [withRetryLoop, he1, he2, he3, hr1, hr2, hr3, h3]
  · intro hj hb he a ha
    unfold calculateDelay
    rw [if_neg (by simp [hj]), if_neg (by simp [hj])]
    refine min_le_min ?_ le_rfl
    refine mul_le_mul_of_nonneg_left ?_ hb
    exact pow_le_pow_right₀ he (by omega)

/-- C7, witness: the three conjuncts applied to a concrete non-retryable 400
failure, a concrete always-retryable 500 failure under `maxAttempts = 3`, and
the first two delays of the jitter-free standard profile. -/
theorem C7_retry_counts_witness :
    (withRetry (fun _ => (Except.error demoRaw400 : Except JsError Nat))
        demoNoJitterConfig ErrorContext.empty 0).attemptsUsed = 1 ∧
    (withRetry (fun _ => (Except.error demoRaw500 : Except JsError Nat))
        demoNoJitterConfig ErrorContext.empty 0).attemptsUsed = 3 ∧
    calculateDelay demoNoJitterConfig 0 1 ≤ calculateDelay demoNoJitterConfig 0 2 := by
  refine ⟨?_, ?_, ?_⟩
  · exact ((C7_retry_counts_and_monotone_delays demoNoJitterConfig
      ErrorContext.empty 0).1 Nat _ demoRaw400 (by decide) rfl (by decide)).1
  · exact ((C7_retry_counts_and_monotone_delays demoNoJitterConfig
      ErrorContext.empty 0).2.1 Nat _ (by decide)
      (fun i h1 h2 => ⟨demoRaw500, rfl, by decide⟩)).1
  · exact (C7_retry_counts_and_monotone_delays demoNoJitterConfig
      ErrorContext.empty 0).2.2 rfl (by norm_num [demoNoJitterConfig])
      (by norm_num [demoNoJitterConfig]) 1 (by omega)

/-- C6 (code bug): on the dashboard read path, a 400 client failure — which
`isRetryableError` itself classifies non-retryable — is wrapped by
`handleApiError` into a `NetworkError` that has NO `response` property, so
`withRetry` reclassifies every subsequent failure as retryable (`!error.response`),
retries it the full 3 attempts instead of surfacing it immediately, and the
terminal error reads `error.response?.status` off the wrapper: the original
HTTP status 400 is dropped (`status = none`) and the original message is
replaced by the friendly text, contradicting the claim on all three counts
(immediate surfacing, status preservation, message preservation). -/
theorem C6_root_cause_dropped :
    isRetryableError demoRaw400 = false ∧
    demoRaw400.message = "Request failed with status code 400" ∧
    demoRaw400.response = some { status := 400, dataMessage := none } ∧
    (CachedApiClient.getFresh (δ := Nat) (fun _ => .error demoRaw400)
        demoDashboardCtx 0).attemptsUsed = 3 ∧
    (CachedApiClient.getFresh (δ := Nat) (fun _ => .error demoRaw400)
        demoDashboardCtx 0).result =
      RetryResult.failed
        { message := "Некорректный запрос. Проверьте введенные данные.",
          response := none, status := none,
          context := { url := some "/api/v1/dashboard/stats",
                       method := some "GET", status := none,
                       attempt := some 3, maxAttempts := some 3 },
          isRetryable := false } := by
  decide

/-- C10 (confirmed): an optimistic apply shows the speculative value
immediately and remembers the prior confirmed value; on failure the
speculative value is kept while the error is surfaced and a rollback timer
for the configured grace window (default 3000 ms) is pending; when that
window elapses with no further apply, the data reverts to the value
remembered at apply time; and a further apply cancels the pending
rollback. -/
theorem C10_optimistic_rollback {α : Type} (c : OptimisticController α)
    (spec next : α) (e : JsError) :
    (applyOptimistic c spec).state.data = spec ∧
    (applyOptimistic c spec).state.isOptimistic = true ∧
    (applyOptimistic c spec).originalData = c.state.data ∧
    (failOptimistic (applyOptimistic c spec) e).state.data = spec ∧
    (failOptimistic (applyOptimistic c spec) e).state.error = some e ∧
    (failOptimistic (applyOptimistic c spec) e).state.isOptimistic = true ∧
    (failOptimistic (applyOptimistic c spec) e).rollbackTimer =
      some (c.rollbackDelay, e) ∧
    (fireRollback (failOptimistic (applyOptimistic c spec) e)).state.data =
      c.state.data ∧
    (fireRollback (failOptimistic (applyOptimistic c spec) e)).state.isOptimistic =
      false ∧
    (fireRollback (failOptimistic (applyOptimistic c spec) e)).rollbackTimer =
      none ∧
    (applyOptimistic (failOptimistic (applyOptimistic c spec) e)
        next).rollbackTimer = none ∧
    defaultRollbackDelay = 3000 :=
  ⟨rfl, rfl, rfl, rfl, rfl, rfl, rfl, rfl, rfl, rfl, rfl, rfl⟩
